import Mathlib

/-!
Verification of the mmb trading engine core against its specification.

The definitions below are a shallow embedding of the repository's Rust
sources:

* `src/core/exchanges/general/order/create.rs` — the order-creation part of
  the order state machine (`handle_create_order_succeeded`,
  `handle_create_order_failed`, `react_on_status_when_succeed`,
  `react_on_status_when_failed`, `add_event_on_order_change`);
* `src/core/exchanges/cancellation_token.rs` — the hierarchical cancellation
  token (`cancel`, `create_linked_token`);
* `src/core/services/usd_converter/prices_calculator.rs` — the price-chain
  rebasing calculator;
* the balance reservation engine, whose implementation is not part of this
  source tree (only its tests are); it is modelled from the specification.

Maps that are `DashMap`s in the source are embedded as association lists with
first-match lookup; mutation through an `OrderRef` is embedded as an explicit
write-back of the updated order snapshot into the pool.
-/

namespace Mmb

/-- First-match lookup in an association list (embedding of map `get`). -/
def lookupKey {κ α : Type} [DecidableEq κ] (k : κ) : List (κ × α) → Option α
  | [] => none
  | (k', v) :: t => if k' = k then some v else lookupKey k t

/-- Key-membership test in an association list (embedding of `contains_key`). -/
def containsKey {κ α : Type} [DecidableEq κ] (k : κ) (l : List (κ × α)) : Bool :=
  (lookupKey k l).isSome

/-- Replace the value of the first entry with key `k` (embedding of in-place
mutation of the record a map entry points to). -/
def updateFirst {κ α : Type} [DecidableEq κ] (k : κ) (f : α → α) : List (κ × α) → List (κ × α)
  | [] => []
  | (k', v) :: t => if k' = k then (k', f v) :: t else (k', v) :: updateFirst k f t

/-- Remove the first entry with key `k` (embedding of map `remove`). -/
def removeFirst {κ α : Type} [DecidableEq κ] (k : κ) : List (κ × α) → List (κ × α)
  | [] => []
  | (k', v) :: t => if k' = k then t else (k', v) :: removeFirst k t

/-! ## Order state machine (`src/core/exchanges/general/order/create.rs`) -/

/-- Order statuses (`OrderStatus` in `orders/order.rs`). -/
inductive OrderStatus
  | Creating
  | Created
  | Canceling
  | Canceled
  | Completed
  | FailedToCreate
  | FailedToCancel
  deriving DecidableEq, Repr

/-- Modelled from the spec: the statuses Completed, Canceled, FailedToCreate
and FailedToCancel are terminal ("finished"); `OrderSnapshot::is_finished`
lives in `orders/order.rs`, which is outside this source tree. -/
def OrderStatus.is_finished : OrderStatus → Bool
  | .Canceled => true
  | .Completed => true
  | .FailedToCreate => true
  | .FailedToCancel => true
  | _ => false

/-- Exchange error kinds (`ExchangeErrorType` in `exchanges/common.rs`). -/
inductive ExchangeErrorType
  | Unknown
  | RateLimit
  | Authentication
  | InvalidOrder
  | OrderNotFound
  | OrderCompleted
  | InsufficientFunds
  | ParsingError
  | Network
  deriving DecidableEq, Repr

/-- Source of an exchange event (`EventSourceType` in `orders/fill.rs`). -/
inductive EventSourceType
  | Rest
  | WebSocket
  deriving DecidableEq, Repr

/-- Order event kinds published on the event bus (`OrderEventType` in
`orders/order.rs`). -/
inductive OrderEventType
  | CreateOrderSucceeded
  | CreateOrderFailed
  | CancelOrderSucceeded
  | CancelOrderFailed
  | OrderFilled
  | OrderCompleted
  deriving DecidableEq, Repr

/-- An exchange error: kind plus message (`ExchangeError`). -/
structure ExchangeError where
  errorType : ExchangeErrorType
  message : String
  deriving DecidableEq, Repr

/-- The fields of an order record (`OrderSnapshot`) read or written by the
creation handlers in `create.rs`. -/
structure OrderSnapshot where
  clientOrderId : String
  exchangeOrderId : Option String
  status : OrderStatus
  lastCreationErrorType : Option ExchangeErrorType
  lastCreationErrorMessage : String
  creationEventSourceType : Option EventSourceType
  cancellationEventWasRaised : Bool
  deriving DecidableEq, Repr

/-- `OrderSnapshot::set_status` (in `orders/order.rs`, outside this tree);
modelled from the spec as updating the status field. -/
def OrderSnapshot.set_status (o : OrderSnapshot) (s : OrderStatus) : OrderSnapshot :=
  { o with status := s }

/-- The order pool (`OrdersPool`): primary index by client order id holding
the order records; secondary index by exchange order id referencing the same
records (embedded as the record's client order id); and the not-finished
index. -/
structure OrdersPool where
  byClientId : List (String × OrderSnapshot)
  byExchangeId : List (String × String)
  notFinished : List String
  deriving DecidableEq, Repr

/-- The part of `Exchange` state touched by the creation handlers: the order
pool and the stream of published order events. -/
structure ExchangeState where
  pool : OrdersPool
  events : List (String × OrderEventType)
  deriving DecidableEq, Repr

/-- Write the mutated order record back through its `OrderRef` into the pool
(embedding of the in-place mutation performed by `fn_mut`). -/
def writeBack (cid : String) (o : OrderSnapshot) (st : ExchangeState) : ExchangeState :=
  { st with pool := { st.pool with byClientId := updateFirst cid (fun _ => o) st.pool.byClientId } }

/-- `Exchange::add_event_on_order_change`: sets `cancellation_event_was_raised`
for cancel-success events and drops a finished order from the not-finished
index. It publishes nothing: the `events_channel.add_event` push in its body
is a commented-out TODO in the source, so the event stream is left unchanged. -/
def add_event_on_order_change (st : ExchangeState) (order : OrderSnapshot)
    (eventType : OrderEventType) : ExchangeState × OrderSnapshot :=
  let order :=
    if eventType = .CancelOrderSucceeded then
      { order with cancellationEventWasRaised := true }
    else order
  let pool :=
    if order.status.is_finished then
      { st.pool with notFinished := st.pool.notFinished.filter (fun k => k ≠ order.clientOrderId) }
    else st.pool
  ({ pool := pool, events := st.events }, order)

/-- `Exchange::react_on_status_when_failed`: dispatch on the current status of
an order for which a creation-failure event arrived. Only a `Creating` order
is mutated; `FailedToCreate` is a warned no-op; every other status is an
error (`log_error_and_propagate`). -/
def react_on_status_when_failed (st : ExchangeState) (cid : String) (o : OrderSnapshot)
    (err : ExchangeError) : ExchangeState × Except String Unit :=
  match o.status with
  | .Created => (st, .error "CreateOrderFailed was received for a Created order")
  | .FailedToCreate => (st, .ok ())
  | .Canceling => (st, .error "CreateOrderFailed was received for a Canceling order")
  | .Canceled => (st, .error "CreateOrderFailed was received for a Canceled order")
  | .Completed => (st, .error "CreateOrderFailed was received for a Completed order")
  | .FailedToCancel => (st, .error "CreateOrderFailed was received for a FailedToCancel order")
  | .Creating =>
    let o1 := { o.set_status .FailedToCreate with
                lastCreationErrorType := some err.errorType,
                lastCreationErrorMessage := err.message }
    let p := add_event_on_order_change st o1 .CreateOrderFailed
    (writeBack cid p.2 p.1, .ok ())

/-- `Exchange::handle_create_order_failed`: reject an empty client order id,
reject an unknown order, otherwise mutate the found order under its lock. -/
def handle_create_order_failed (st : ExchangeState) (cid : String) (err : ExchangeError) :
    ExchangeState × Except String Unit :=
  if cid = "" then
    (st, .error "Order was created but client_order_id is empty")
  else
    match lookupKey cid st.pool.byClientId with
    | none =>
      (st, .error "CreateOrderSucceeded was received for an order which is not in the local orders pool")
    | some o => react_on_status_when_failed st cid o err

/-- `Exchange::react_on_status_when_succeed`: dispatch on the current status of
an order for which a creation-success event arrived. `FailedToCreate` is an
error; every other non-`Creating` status is a warned no-op (`log_warn`); a
`Creating` order whose exchange order id is not yet indexed transitions to
`Created`, is indexed, and a `CreateOrderSucceeded` event is published. -/
def react_on_status_when_succeed (st : ExchangeState) (cid : String) (o : OrderSnapshot)
    (eoid : String) (src : EventSourceType) : ExchangeState × Except String Unit :=
  match o.status with
  | .FailedToCreate => (st, .error "CreateOrderSucceeded was received for a FailedToCreate order")
  | .Created => (st, .ok ())
  | .Canceling => (st, .ok ())
  | .Canceled => (st, .ok ())
  | .Completed => (st, .ok ())
  | .FailedToCancel => (st, .ok ())
  | .Creating =>
    if containsKey eoid st.pool.byExchangeId then (st, .ok ())
    else
      let o1 := { o.set_status .Created with creationEventSourceType := some src }
      let st1 := { st with pool :=
        { st.pool with byExchangeId := st.pool.byExchangeId ++ [(eoid, cid)] } }
      let p := add_event_on_order_change st1 o1 .CreateOrderSucceeded
      (writeBack cid p.2 p.1, .ok ())

/-- `Exchange::handle_create_order_succeeded`: reject empty client or exchange
order ids; a missing order is only warned about; for a found order the
exchange order id is written into the record *before* the status dispatch. -/
def handle_create_order_succeeded (st : ExchangeState) (cid : String) (eoid : String)
    (src : EventSourceType) : ExchangeState × Except String Unit :=
  if cid = "" then
    (st, .error "Order was created but client_order_id is empty")
  else if eoid = "" then
    (st, .error "Order was created but exchange_order_id is empty")
  else
    match lookupKey cid st.pool.byClientId with
    | none => (st, .ok ())
    | some o =>
      let o1 := { o with exchangeOrderId := some eoid }
      let st1 := writeBack cid o1 st
      react_on_status_when_succeed st1 cid o1 eoid src

/-! ## Cancellation token (`src/core/exchanges/cancellation_token.rs`) -/

/-- The heap of cancellation-token states. Token `i` carries the atomic
`is_cancellation_requested` flag `cancelled.getD i false` and the registered
handlers `handlers.getD i []`; each handler is the weak back-reference
`create_linked_token` registers to the linked child's state, embedded as the
child's index. -/
structure TokenWorld where
  numTokens : Nat
  cancelled : List Bool
  handlers : List (List Nat)
  deriving DecidableEq, Repr

/-- `CancellationToken::cancel`: store `true` into the token's own flag, then
invoke every registered handler; each handler cancels the linked child token,
recursively. The recursion is fuelled; `TokenWorld.cancel` supplies fuel
`numTokens`, which suffices because handlers only ever point to strictly
later-created tokens (`TokenWorld.wf`). -/
def cancelAux : Nat → TokenWorld → Nat → TokenWorld
  | 0, w, _ => w
  | fuel + 1, w, id =>
    let w1 := { w with cancelled := w.cancelled.set id true }
    (w.handlers.getD id []).foldl (fun acc child => cancelAux fuel acc child) w1

/-- `CancellationToken::cancel` on token `id`. -/
def TokenWorld.cancel (w : TokenWorld) (id : Nat) : TokenWorld :=
  cancelAux w.numTokens w id

/-- `CancellationToken::is_cancellation_requested`. -/
def TokenWorld.is_cancellation_requested (w : TokenWorld) (id : Nat) : Bool :=
  w.cancelled.getD id false

/-- `CancellationToken::new`: a fresh token, not cancelled, no handlers. -/
def TokenWorld.newToken (w : TokenWorld) : Nat × TokenWorld :=
  (w.numTokens,
   { numTokens := w.numTokens + 1,
     cancelled := w.cancelled ++ [false],
     handlers := w.handlers ++ [[]] })

/-- `CancellationToken::register_handler`: push a handler onto the parent's
handler list. -/
def TokenWorld.register_handler (w : TokenWorld) (parent child : Nat) : TokenWorld :=
  { w with handlers := w.handlers.set parent ((w.handlers.getD parent []) ++ [child]) }

/-- `CancellationToken::create_linked_token`: create a fresh token, register
on the parent a handler cancelling it, then, if the parent is already
cancelled, cancel the new token immediately. -/
def TokenWorld.create_linked_token (w : TokenWorld) (parent : Nat) : Nat × TokenWorld :=
  let p := w.newToken
  let w2 := p.2.register_handler parent p.1
  let w3 := if w2.is_cancellation_requested parent then w2.cancel p.1 else w2
  (p.1, w3)

/-- Well-formedness of a token world: the flag and handler tables cover the
tokens, and every registered handler points to a strictly later-created
token. `create_linked_token` only registers freshly created children, so
every world built by the API satisfies this. -/
def TokenWorld.wf (w : TokenWorld) : Bool :=
  w.cancelled.length = w.numTokens && w.handlers.length = w.numTokens &&
    (List.range w.numTokens).all fun i =>
      (w.handlers.getD i []).all fun c => i < c && c < w.numTokens

/-- The key structural consequence of `TokenWorld.wf`: handlers only point to
strictly later-created tokens. -/
def TokenWorld.upward (w : TokenWorld) : Prop :=
  ∀ i c, c ∈ w.handlers.getD i [] → i < c

/-! ## Prices calculator (`src/core/services/usd_converter/prices_calculator.rs`)

Prices and amounts are exact decimals (`rust_decimal::Decimal`), embedded as
rationals. -/

/-- `TradePlace`: exchange id plus currency pair. -/
structure TradePlace where
  exchangeId : String
  currencyPair : String
  deriving DecidableEq, Repr

/-- `RebaseDirection` (`rebase_price_step.rs`). -/
inductive RebaseDirection
  | ToQuote
  | ToBase
  deriving DecidableEq, Repr

/-- One step of a price-source chain (`RebasePriceStep`): its exchange id and
its symbol's currency pair determine the step's trade place. -/
structure RebasePriceStep where
  exchangeId : String
  currencyPair : String
  direction : RebaseDirection
  deriving DecidableEq, Repr

/-- The trade place of a step (`TradePlace::new(step.exchange_id,
step.symbol.currency_pair())`). -/
def RebasePriceStep.tradePlace (s : RebasePriceStep) : TradePlace :=
  ⟨s.exchangeId, s.currencyPair⟩

/-- `PriceSourceChain` reduced to what the calculator reads. -/
structure PriceSourceChain where
  rebasePriceSteps : List RebasePriceStep
  deriving DecidableEq, Repr

/-- The loop of `calculate_amount_for_chain`: accumulate the rebase price over
the steps, aborting with `none` (the `?` operator) as soon as
`calculate_price` has no price for a step's trade place. -/
def calculateAmountLoop (calculate_price : TradePlace → Option ℚ) :
    List RebasePriceStep → ℚ → Option ℚ
  | [], rebase_price => some rebase_price
  | step :: rest, rebase_price =>
    match calculate_price step.tradePlace with
    | none => none
    | some calculated_price =>
      calculateAmountLoop calculate_price rest
        (match step.direction with
         | .ToQuote => rebase_price * calculated_price
         | .ToBase => rebase_price / calculated_price)

/-- `calculate_amount_for_chain`: run the loop from `1` and multiply by the
source amount. -/
def calculate_amount_for_chain (src_amount : ℚ) (chain : PriceSourceChain)
    (calculate_price : TradePlace → Option ℚ) : Option ℚ :=
  (calculateAmountLoop calculate_price chain.rebasePriceSteps 1).map fun r => r * src_amount

/-- `prices_calculator::calculate`: prices come from the cache; the
`expect("Invalid price cache")` panic is embedded as `Except.error`. -/
def calculate (src_amount : ℚ) (chain : PriceSourceChain)
    (prices : List (TradePlace × ℚ)) : Except String ℚ :=
  match calculate_amount_for_chain src_amount chain (fun tp => lookupKey tp prices) with
  | none => .error "Invalid price cache"
  | some v => .ok v

/-- An order-book snapshot reduced to what `convert_amount` reads from it: the
middle price `calculate_middle_price` computes, `none` for an empty book. -/
structure LocalOrderBookSnapshot where
  middlePrice : Option ℚ
  deriving DecidableEq, Repr

/-- `LocalSnapshotsService`: order-book snapshots by trade place. -/
structure LocalSnapshotsService where
  snapshots : List (TradePlace × LocalOrderBookSnapshot)
  deriving DecidableEq, Repr

/-- `convert_amount`: prices come from the snapshot service's middle prices. -/
def convert_amount (src_amount : ℚ) (svc : LocalSnapshotsService)
    (chain : PriceSourceChain) : Option ℚ :=
  calculate_amount_for_chain src_amount chain
    (fun tp => (lookupKey tp svc.snapshots).bind fun s => s.middlePrice)

/-- The rebase price of a chain all of whose steps have a price: the same fold
of multiplications and divisions the loop performs, as a total function. -/
def chainRebasePrice (price : TradePlace → ℚ) : List RebasePriceStep → ℚ → ℚ
  | [], acc => acc
  | step :: rest, acc =>
    chainRebasePrice price rest
      (match step.direction with
       | .ToQuote => acc * price step.tradePlace
       | .ToBase => acc / price step.tradePlace)

/-! ## Balance reservation engine

The `BalanceReservationManager` implementation is not part of this source
tree — only `src/core/balance_manager/tests` is — so the engine is modelled
from the specification (§3 Data model, §4.3 Balance Reservation Engine), for
ordinal (non-derivative) symbols. Amounts and prices are exact decimals,
embedded as rationals. -/

/-- `OrderSide`. -/
inductive OrderSide
  | Buy
  | Sell
  deriving DecidableEq, Repr

/-- Modelled from the spec: reserve parameters — account, side, price, amount
and the currency pair they refer to (`ReserveParameters`). -/
structure ReserveParameters where
  exchangeAccountId : String
  side : OrderSide
  price : ℚ
  amount : ℚ
  baseCurrencyCode : String
  quoteCurrencyCode : String
  deriving DecidableEq, Repr

/-- Modelled from the spec: for Buy the reserved currency is the quote
currency, for Sell the base currency. -/
def ReserveParameters.reservationCurrency (p : ReserveParameters) : String :=
  match p.side with
  | .Buy => p.quoteCurrencyCode
  | .Sell => p.baseCurrencyCode

/-- Modelled from the spec: the cost, in the reservation currency, of holding
`amount` at `price`: `amount × price` for Buy, `amount` for Sell. -/
def costInReservationCurrency (side : OrderSide) (price amount : ℚ) : ℚ :=
  match side with
  | .Buy => amount * price
  | .Sell => amount

/-- Modelled from the spec: a reservation (§3 Data model). -/
structure Reservation where
  exchangeAccountId : String
  side : OrderSide
  price : ℚ
  amount : ℚ
  unreservedAmount : ℚ
  notApprovedAmount : ℚ
  baseCurrencyCode : String
  quoteCurrencyCode : String
  approvedParts : List (String × ℚ)
  deriving DecidableEq, Repr

/-- The reservation currency of a reservation. -/
def Reservation.reservationCurrency (r : Reservation) : String :=
  match r.side with
  | .Buy => r.quoteCurrencyCode
  | .Sell => r.baseCurrencyCode

/-- Modelled from the spec: the balance-manager state — per-account-and-
currency balance cells (actual balance and virtual diff collapsed into one
value), the reservation table keyed by process-unique integer handles, the
next fresh handle, and the known exchange account ids. -/
structure BalanceManager where
  balances : List ((String × String) × ℚ)
  reservations : List (Nat × Reservation)
  nextReservationId : Nat
  knownExchanges : List String
  deriving DecidableEq, Repr

/-- Modelled from the spec: the amount of `currency` on `account` held by live
reservations, each counted by the cost of its remaining unreserved amount at
its price. -/
def BalanceManager.reservedAmount (s : BalanceManager) (account currency : String) : ℚ :=
  (s.reservations.map fun p =>
    if p.2.exchangeAccountId = account ∧ p.2.reservationCurrency = currency then
      costInReservationCurrency p.2.side p.2.price p.2.unreservedAmount
    else 0).sum

/-- Modelled from the spec: `get_balance_by_reserve_parameters` — available =
balance − live reservations in that currency; `none` when the balance cell is
absent. -/
def BalanceManager.get_balance_by_reserve_parameters (s : BalanceManager)
    (p : ReserveParameters) : Option ℚ :=
  (lookupKey (p.exchangeAccountId, p.reservationCurrency) s.balances).map
    fun b => b - s.reservedAmount p.exchangeAccountId p.reservationCurrency

/-- Modelled from the spec: `get_reservation`. -/
def BalanceManager.get_reservation (s : BalanceManager) (id : Nat) : Option Reservation :=
  lookupKey id s.reservations

/-- Modelled from the spec: `can_reserve` — the required cost must not exceed
the available balance. -/
def BalanceManager.can_reserve (s : BalanceManager) (p : ReserveParameters) : Bool :=
  match s.get_balance_by_reserve_parameters p with
  | none => false
  | some available => decide (costInReservationCurrency p.side p.price p.amount ≤ available)

/-- Modelled from the spec: `try_reserve` — on success append a reservation
under a fresh handle, its unreserved and not-approved amounts equal to the
full amount. -/
def BalanceManager.try_reserve (s : BalanceManager) (p : ReserveParameters) :
    Option (Nat × BalanceManager) :=
  if s.can_reserve p then
    some (s.nextReservationId,
      { s with
        reservations := s.reservations ++
          [(s.nextReservationId,
            { exchangeAccountId := p.exchangeAccountId
              side := p.side
              price := p.price
              amount := p.amount
              unreservedAmount := p.amount
              notApprovedAmount := p.amount
              baseCurrencyCode := p.baseCurrencyCode
              quoteCurrencyCode := p.quoteCurrencyCode
              approvedParts := [] })]
        nextReservationId := s.nextReservationId + 1 })
  else none

/-- Modelled from the spec (§4.3 Atomicity): `try_reserve_pair` attempts both
legs against a snapshot of the state and commits only if both succeed; on any
failure the snapshot's mutations are discarded. -/
def BalanceManager.try_reserve_pair (s : BalanceManager) (p1 p2 : ReserveParameters) :
    Option (Nat × Nat) × BalanceManager :=
  match s.try_reserve p1 with
  | none => (none, s)
  | some (id1, s1) =>
    match s1.try_reserve p2 with
    | none => (none, s)
    | some (id2, s2) => (some (id1, id2), s2)

/-- Modelled from the spec (§4.3 Unreserve compensation, Unknown account):
`unreserve` — an unknown reservation handle is an error; a reservation whose
account id is no longer a known exchange is a silent success leaving
everything intact; an amount exceeding the remaining unreserved amount by
more than the configured `eps` is rejected; otherwise the unreserved quantity
is clamped to the remainder, and a reservation whose remainder reaches zero
is removed. -/
def BalanceManager.unreserve (s : BalanceManager) (eps : ℚ) (id : Nat) (amount : ℚ) :
    Except String BalanceManager :=
  match lookupKey id s.reservations with
  | none => .error "Can't find reservation_id="
  | some r =>
    if r.exchangeAccountId ∈ s.knownExchanges then
      if r.unreservedAmount + eps < amount then
        .error "attempt to unreserve more than reserved"
      else
        let to_unreserve := min amount r.unreservedAmount
        if r.unreservedAmount - to_unreserve = 0 then
          .ok { s with reservations := removeFirst id s.reservations }
        else
          .ok { s with reservations :=
            updateFirst id (fun r0 =>
              { r0 with
                unreservedAmount := r0.unreservedAmount - to_unreserve
                notApprovedAmount := r0.notApprovedAmount - to_unreserve }) s.reservations }
    else
      .ok s

/-- Modelled from the spec (§4.3 Update semantics): `try_update_reservation` —
reprice a reservation. A better price (the cost difference is not positive)
always succeeds and releases the delta; a worse price succeeds only when the
extra cost fits into the available balance, and fails without mutating
anything otherwise. On success only the reservation's price changes (the
availability accounting follows through `reservedAmount`). -/
def BalanceManager.try_update_reservation (s : BalanceManager) (id : Nat) (newPrice : ℚ) :
    Bool × BalanceManager :=
  match lookupKey id s.reservations with
  | none => (false, s)
  | some r =>
    match lookupKey (r.exchangeAccountId, r.reservationCurrency) s.balances with
    | none => (false, s)
    | some b =>
      let available := b - s.reservedAmount r.exchangeAccountId r.reservationCurrency
      let costDiff :=
        costInReservationCurrency r.side newPrice r.unreservedAmount -
          costInReservationCurrency r.side r.price r.unreservedAmount
      if 0 < costDiff ∧ available < costDiff then (false, s)
      else
        let reservations := updateFirst id (fun r0 => { r0 with price := newPrice }) s.reservations
        (true, { s with reservations := reservations })

/-! ## Concrete sample states used by the witness theorems -/

/-- A freshly submitted order "a" still in status Creating. -/
def sampleCreatingOrder : OrderSnapshot :=
  ⟨"a", none, .Creating, none, "", none, false⟩

/-- An exchange state holding only `sampleCreatingOrder`. -/
def sampleCreatingState : ExchangeState :=
  ⟨⟨[("a", sampleCreatingOrder)], [], ["a"]⟩, []⟩

/-- A canceled order "a" whose exchange order id is "A". -/
def sampleCanceledOrder : OrderSnapshot :=
  ⟨"a", some "A", .Canceled, none, "", none, false⟩

/-- An exchange state holding only `sampleCanceledOrder`, indexed under its
exchange order id. -/
def sampleCanceledState : ExchangeState :=
  ⟨⟨[("a", sampleCanceledOrder)], [("A", "a")], []⟩, []⟩

/-- A token world holding a single uncancelled token. -/
def sampleTokenWorld : TokenWorld := ⟨1, [false], [[]]⟩

/-- A token world holding a single already-cancelled token. -/
def sampleCancelledTokenWorld : TokenWorld := ⟨1, [true], [[]]⟩

/-- Reserve parameters for buying 5 ETH at 0.2 BTC on account "acct". -/
def sampleBuyParams : ReserveParameters := ⟨"acct", .Buy, 1/5, 5, "ETH", "BTC"⟩

/-- Reserve parameters for selling 5 ETH at 0.2 BTC on account "acct". -/
def sampleSellParams : ReserveParameters := ⟨"acct", .Sell, 1/5, 5, "ETH", "BTC"⟩

/-- A balance manager holding 5 ETH (and no BTC cell) on account "acct". -/
def sampleEthState : BalanceManager := ⟨[(("acct", "ETH"), 5)], [], 0, ["acct"]⟩

/-- A live Buy reservation of 5 ETH at 0.2 BTC, fully unreserved. -/
def sampleBuyReservation : Reservation :=
  ⟨"acct", .Buy, 1/5, 5, 5, 5, "ETH", "BTC", []⟩

/-- A balance manager holding 1.1 BTC on account "acct" with
`sampleBuyReservation` live under handle 7. -/
def sampleReservedState : BalanceManager :=
  ⟨[(("acct", "BTC"), 11/10)], [(7, sampleBuyReservation)], 8, ["acct"]⟩

/-- `sampleReservedState` with the reservation's account pointing to an
exchange that is no longer known. -/
def sampleOrphanState : BalanceManager :=
  ⟨[(("acct", "BTC"), 11/10)], [(7, { sampleBuyReservation with exchangeAccountId := "gone" })],
   8, ["acct"]⟩

/-! ## Association-list lemmas -/

theorem lookupKey_updateFirst_self {κ α : Type} [DecidableEq κ] (k : κ) (f : α → α)
    (l : List (κ × α)) :
    lookupKey k (updateFirst k f l) = (lookupKey k l).map f := by
  induction l with
  | nil => rfl
  | cons hd t ih =>
    obtain ⟨k', v⟩ := hd
    by_cases h : k' = k
    · simp [updateFirst, lookupKey, h]
    · simp [updateFirst, lookupKey, h, ih]

theorem lookupKey_updateFirst_other {κ α : Type} [DecidableEq κ] (k k' : κ) (hk : k' ≠ k)
    (f : α → α) (l : List (κ × α)) :
    lookupKey k' (updateFirst k f l) = lookupKey k' l := by
  induction l with
  | nil => rfl
  | cons hd t ih =>
    obtain ⟨k₀, v⟩ := hd
    by_cases h : k₀ = k
    · subst h
      have hkk : k₀ ≠ k' := fun h => hk h.symm
      simp [updateFirst, lookupKey, hkk]
    · simp [updateFirst, lookupKey, h, ih]

theorem updateFirst_keys {κ α : Type} [DecidableEq κ] (k : κ) (f : α → α) (l : List (κ × α)) :
    (updateFirst k f l).map Prod.fst = l.map Prod.fst := by
  induction l with
  | nil => rfl
  | cons hd t ih =>
    obtain ⟨k', v⟩ := hd
    by_cases h : k' = k
    · simp [updateFirst, h]
    · simp [updateFirst, h, ih]

theorem updateFirst_const_of_lookup {κ α : Type} [DecidableEq κ] (k : κ) (v : α)
    (l : List (κ × α)) (h : lookupKey k l = some v) : updateFirst k (fun _ => v) l = l := by
  induction l with
  | nil => simp [lookupKey] at h
  | cons hd t ih =>
    obtain ⟨k', w⟩ := hd
    by_cases hk : k' = k
    · simp [lookupKey, hk] at h
      simp [updateFirst, hk, h]
    · simp [lookupKey, hk] at h
      simp [updateFirst, hk, ih h]

theorem lookupKey_mem {κ α : Type} [DecidableEq κ] {k : κ} {v : α} {l : List (κ × α)}
    (h : lookupKey k l = some v) : (k, v) ∈ l := by
  induction l with
  | nil => simp [lookupKey] at h
  | cons hd t ih =>
    obtain ⟨k', w⟩ := hd
    by_cases hk : k' = k
    · subst hk
      simp [lookupKey] at h
      simp [h]
    · simp [lookupKey, hk] at h
      exact List.mem_cons_of_mem _ (ih h)

theorem lookupKey_eq_none_of_not_mem {κ α : Type} [DecidableEq κ] {k : κ} {l : List (κ × α)}
    (h : k ∉ l.map Prod.fst) : lookupKey k l = none := by
  induction l with
  | nil => rfl
  | cons hd t ih =>
    obtain ⟨k', w⟩ := hd
    simp only [List.map_cons, List.mem_cons, not_or] at h
    have hk : k' ≠ k := fun hk => h.1 hk.symm
    simp [lookupKey, hk, ih h.2]

theorem lookupKey_removeFirst_self {κ α : Type} [DecidableEq κ] (k : κ) (l : List (κ × α))
    (h : (l.map Prod.fst).Nodup) : lookupKey k (removeFirst k l) = none := by
  induction l with
  | nil => rfl
  | cons hd t ih =>
    obtain ⟨k', w⟩ := hd
    simp only [List.map_cons, List.nodup_cons] at h
    by_cases hk : k' = k
    · subst hk
      simpa [removeFirst] using lookupKey_eq_none_of_not_mem h.1
    · simp [removeFirst, lookupKey, hk, ih h.2]

theorem sum_map_updateFirst {κ α : Type} [DecidableEq κ] (g : κ × α → ℚ) (k : κ) (f : α → α)
    (l : List (κ × α)) (v : α) (h : lookupKey k l = some v) :
    ((updateFirst k f l).map g).sum = (l.map g).sum - g (k, v) + g (k, f v) := by
  induction l with
  | nil => simp [lookupKey] at h
  | cons hd t ih =>
    obtain ⟨k', w⟩ := hd
    by_cases hk : k' = k
    · subst hk
      simp [lookupKey] at h
      subst h
      simp [updateFirst]
      ring
    · simp [lookupKey, hk] at h
      simp [updateFirst, hk, ih h]
      ring

/-! ## C6: creation failure for a Creating order -/

/-- C6 counterexample: handling a creation-failure event for the Creating
order "a" does perform the transition (the record ends in FailedToCreate with
the error recorded), yet the event stream afterwards is empty — no
`CreateOrderFailed` event is emitted, because the `events_channel.add_event`
push inside `add_event_on_order_change` is a commented-out TODO in the
source. The claim's "emits a CreateOrderFailed event" is false at this
input. -/
theorem create_failed_no_event_counterexample :
    (handle_create_order_failed sampleCreatingState "a" ⟨.InvalidOrder, "bad"⟩).1.events
      = [] ∧
    lookupKey "a" (handle_create_order_failed sampleCreatingState
        "a" ⟨.InvalidOrder, "bad"⟩).1.pool.byClientId =
      some ⟨"a", none, .FailedToCreate, some .InvalidOrder, "bad", none, false⟩ := by
  constructor <;> decide

/-- C6 (amended): for every order in status Creating, handling a
creation-failure event transitions the order to FailedToCreate, records the
error kind in `last_creation_error_type` and the error message in
`last_creation_error_message`, and drops the order from the not-finished
index — but it publishes no `CreateOrderFailed` event: the events-channel
push is an unimplemented TODO, so the event stream is left unchanged. -/
theorem create_failed_creating_transitions (st : ExchangeState) (cid : String)
    (err : ExchangeError) (o : OrderSnapshot)
    (hcid : cid ≠ "")
    (hlook : lookupKey cid st.pool.byClientId = some o)
    (hoid : o.clientOrderId = cid)
    (hstatus : o.status = .Creating) :
    (handle_create_order_failed st cid err).2 = .ok () ∧
    lookupKey cid (handle_create_order_failed st cid err).1.pool.byClientId =
      some { o with
             status := .FailedToCreate
             lastCreationErrorType := some err.errorType
             lastCreationErrorMessage := err.message } ∧
    (handle_create_order_failed st cid err).1.events = st.events ∧
    (handle_create_order_failed st cid err).1.pool.notFinished =
      st.pool.notFinished.filter (fun k => k ≠ cid) := by
  simp only [handle_create_order_failed, hcid, hlook, if_neg hcid]
  simp only [react_on_status_when_failed, hstatus, add_event_on_order_change,
    OrderSnapshot.set_status, writeBack]
  refine ⟨rfl, ?_, rfl, ?_⟩
  · simp [OrderStatus.is_finished, lookupKey_updateFirst_self, hlook]
  · simp [OrderStatus.is_finished, hoid]

/-- C6 witness: a Creating order "a" fails to create with an InvalidOrder
error at a concrete state; the record transitions and the event stream stays
as it was. -/
theorem create_failed_creating_transitions_witness :
    ("a" : String) ≠ "" ∧
    lookupKey "a" sampleCreatingState.pool.byClientId = some sampleCreatingOrder ∧
    (handle_create_order_failed sampleCreatingState "a" ⟨.InvalidOrder, "bad"⟩).2 = .ok () ∧
    lookupKey "a" (handle_create_order_failed sampleCreatingState
        "a" ⟨.InvalidOrder, "bad"⟩).1.pool.byClientId =
      some ⟨"a", none, .FailedToCreate, some .InvalidOrder, "bad", none, false⟩ ∧
    (handle_create_order_failed sampleCreatingState "a" ⟨.InvalidOrder, "bad"⟩).1.events =
      sampleCreatingState.events :=
  ⟨by decide, by decide,
   (create_failed_creating_transitions sampleCreatingState "a" ⟨.InvalidOrder, "bad"⟩
      sampleCreatingOrder (by decide) (by decide) rfl rfl).1,
   (create_failed_creating_transitions sampleCreatingState "a" ⟨.InvalidOrder, "bad"⟩
      sampleCreatingOrder (by decide) (by decide) rfl rfl).2.1,
   (create_failed_creating_transitions sampleCreatingState "a" ⟨.InvalidOrder, "bad"⟩
      sampleCreatingOrder (by decide) (by decide) rfl rfl).2.2.1⟩

/-! ## C9: creation-success event edge cases -/

/-- C9: for every creation-success event, an empty client order id or an
empty exchange order id is rejected with an error and the state is left
untouched; a non-empty client order id absent from the pool yields success
(after a warning); and in every case the set of orders in the pool (its
client-order-id keys) is unchanged — no new order is ever inserted. -/
theorem handle_succeeded_edge_cases (st : ExchangeState) (cid eoid : String)
    (src : EventSourceType) :
    (cid = "" → handle_create_order_succeeded st cid eoid src =
      (st, .error "Order was created but client_order_id is empty")) ∧
    (cid ≠ "" → eoid = "" → handle_create_order_succeeded st cid eoid src =
      (st, .error "Order was created but exchange_order_id is empty")) ∧
    (cid ≠ "" → eoid ≠ "" → lookupKey cid st.pool.byClientId = none →
      handle_create_order_succeeded st cid eoid src = (st, .ok ())) ∧
    (handle_create_order_succeeded st cid eoid src).1.pool.byClientId.map Prod.fst =
      st.pool.byClientId.map Prod.fst := by
  refine ⟨?_, ?_, ?_, ?_⟩
  · intro h
    simp [handle_create_order_succeeded, h]
  · intro h1 h2
    simp [handle_create_order_succeeded, h1, h2]
  · intro h1 h2 h3
    simp [handle_create_order_succeeded, h1, h2, h3]
  · by_cases h1 : cid = ""
    · simp [handle_create_order_succeeded, h1]
    · by_cases h2 : eoid = ""
      · simp [handle_create_order_succeeded, h1, h2]
      · cases hlook : lookupKey cid st.pool.byClientId with
        | none => simp [handle_create_order_succeeded, h1, h2, hlook]
        | some o =>
          simp only [handle_create_order_succeeded, if_neg h1, if_neg h2, hlook]
          cases hstatus : o.status <;>
            · simp only [react_on_status_when_succeed, hstatus, writeBack,
                add_event_on_order_change, OrderSnapshot.set_status, OrderStatus.is_finished]
              first
              | (split <;> simp [updateFirst_keys])
              | simp [updateFirst_keys]

/-- C9 witness: at a concrete one-order pool, the empty-id rejection, the
unknown-order success and the key preservation all hold. -/
theorem handle_succeeded_edge_cases_witness :
    (handle_create_order_succeeded sampleCreatingState "" "X" .Rest =
      (sampleCreatingState, .error "Order was created but client_order_id is empty")) ∧
    (handle_create_order_succeeded sampleCreatingState "b" "X" .Rest =
      (sampleCreatingState, .ok ())) ∧
    (handle_create_order_succeeded sampleCreatingState
        "a" "X" .Rest).1.pool.byClientId.map Prod.fst = ["a"] :=
  ⟨(handle_succeeded_edge_cases sampleCreatingState "" "X" .Rest).1 rfl,
   (handle_succeeded_edge_cases sampleCreatingState "b" "X" .Rest).2.2.1
     (by decide) (by decide) (by decide),
   by
     have h := (handle_succeeded_edge_cases sampleCreatingState "a" "X" .Rest).2.2.2
     simpa [sampleCreatingState, sampleCreatingOrder] using h⟩

/-! ## C7: idempotence of creation-success delivery -/

theorem updateFirst_updateFirst {κ α : Type} [DecidableEq κ] (k : κ) (f g : α → α)
    (l : List (κ × α)) :
    updateFirst k f (updateFirst k g l) = updateFirst k (fun v => f (g v)) l := by
  induction l with
  | nil => rfl
  | cons hd t ih =>
    obtain ⟨k', v⟩ := hd
    by_cases h : k' = k
    · simp [updateFirst, h]
    · simp [updateFirst, h, ih]

/-- A creation-success event for an order already in status Created whose
exchange order id equals the event's is a no-op returning success. -/
theorem handle_succeeded_created_noop (st : ExchangeState) (cid eoid : String)
    (src : EventSourceType) (o : OrderSnapshot)
    (hcid : cid ≠ "") (heoid : eoid ≠ "")
    (hlook : lookupKey cid st.pool.byClientId = some o)
    (hstatus : o.status = .Created)
    (hexch : o.exchangeOrderId = some eoid) :
    handle_create_order_succeeded st cid eoid src = (st, .ok ()) := by
  obtain ⟨c1, c2, c3, c4, c5, c6, c7⟩ := o
  simp only at hstatus hexch
  subst hstatus
  subst hexch
  simp only [handle_create_order_succeeded, if_neg hcid, if_neg heoid, hlook]
  have hconst : updateFirst cid
      (fun _ => (⟨c1, some eoid, .Created, c4, c5, c6, c7⟩ : OrderSnapshot))
      st.pool.byClientId = st.pool.byClientId :=
    updateFirst_const_of_lookup _ _ _ hlook
  simp [writeBack, react_on_status_when_succeed, hconst]

/-- The exact state produced by a creation-success event for a Creating order
not yet indexed by its exchange order id. -/
theorem handle_succeeded_creating_eq (st : ExchangeState) (cid eoid : String)
    (src : EventSourceType) (o : OrderSnapshot)
    (hcid : cid ≠ "") (heoid : eoid ≠ "")
    (hlook : lookupKey cid st.pool.byClientId = some o)
    (hoid : o.clientOrderId = cid)
    (hstatus : o.status = .Creating)
    (hidx : containsKey eoid st.pool.byExchangeId = false) :
    handle_create_order_succeeded st cid eoid src =
      ({ pool :=
          { byClientId := updateFirst cid
              (fun _ => { o with
                          exchangeOrderId := some eoid
                          status := .Created
                          creationEventSourceType := some src }) st.pool.byClientId
            byExchangeId := st.pool.byExchangeId ++ [(eoid, cid)]
            notFinished := st.pool.notFinished }
         events := st.events }, .ok ()) := by
  simp only [handle_create_order_succeeded, if_neg hcid, if_neg heoid, hlook]
  simp only [react_on_status_when_succeed, hstatus, writeBack, add_event_on_order_change,
    OrderSnapshot.set_status, OrderStatus.is_finished, hidx, hoid]
  simp [updateFirst_updateFirst, hoid]

/-- C7: delivering the same creation-success event twice produces the same
final state as delivering it once — the second delivery finds the order in
status Created and is ignored, returning success without further mutation. -/
theorem double_create_succeeded_idempotent (st : ExchangeState) (cid eoid : String)
    (src : EventSourceType) (o : OrderSnapshot)
    (hcid : cid ≠ "") (heoid : eoid ≠ "")
    (hlook : lookupKey cid st.pool.byClientId = some o)
    (hoid : o.clientOrderId = cid)
    (hstatus : o.status = .Creating)
    (hidx : containsKey eoid st.pool.byExchangeId = false) :
    handle_create_order_succeeded (handle_create_order_succeeded st cid eoid src).1 cid eoid src
      = ((handle_create_order_succeeded st cid eoid src).1, .ok ()) := by
  rw [handle_succeeded_creating_eq st cid eoid src o hcid heoid hlook hoid hstatus hidx]
  refine handle_succeeded_created_noop _ cid eoid src
    { o with exchangeOrderId := some eoid, status := .Created,
             creationEventSourceType := some src } hcid heoid ?_ rfl rfl
  simp [lookupKey_updateFirst_self, hlook]

/-- C7 witness: double delivery of the creation-success event ("a", "X") at a
concrete one-order pool. -/
theorem double_create_succeeded_idempotent_witness :
    handle_create_order_succeeded
        (handle_create_order_succeeded sampleCreatingState "a" "X" .Rest).1 "a" "X" .Rest
      = ((handle_create_order_succeeded sampleCreatingState "a" "X" .Rest).1, .ok ()) :=
  double_create_succeeded_idempotent sampleCreatingState "a" "X" .Rest sampleCreatingOrder
    (by decide) (by decide) (by decide) rfl rfl (by decide)

/-! ## C1: creation events against terminal orders -/

/-- C1 counterexample: a Canceled order with exchange order id "A" receives a
later creation-success event carrying exchange order id "B"; the order record
is mutated — its exchange order id is overwritten with "B" — so processing
the event does not leave a terminal order's record unchanged, and
`exchange_order_id` is not immutable once set. -/
theorem terminal_order_mutated_counterexample :
    lookupKey "a"
        (handle_create_order_succeeded sampleCanceledState "a" "B" .Rest).1.pool.byClientId
      = some ⟨"a", some "B", .Canceled, none, "", none, false⟩ ∧
    lookupKey "a"
        (handle_create_order_succeeded sampleCanceledState "a" "B" .Rest).1.pool.byClientId
      ≠ some sampleCanceledOrder := by
  constructor <;> decide

/-- C1 (amended): for every order in the pool whose status is terminal, a
later creation-failure event leaves the state entirely unchanged, and a later
creation-success event leaves the status, every other order field, all other
orders, and the event stream unchanged, except that it overwrites the order's
`exchange_order_id` with the event's exchange order id (so that field keeps
its value only when the event carries the same id). -/
theorem terminal_order_creation_events (st : ExchangeState) (cid eoid : String)
    (src : EventSourceType) (err : ExchangeError) (o : OrderSnapshot)
    (hcid : cid ≠ "") (heoid : eoid ≠ "")
    (hlook : lookupKey cid st.pool.byClientId = some o)
    (hterm : o.status.is_finished = true) :
    (handle_create_order_failed st cid err).1 = st ∧
    (handle_create_order_succeeded st cid eoid src).1 =
      writeBack cid { o with exchangeOrderId := some eoid } st ∧
    lookupKey cid (handle_create_order_succeeded st cid eoid src).1.pool.byClientId =
      some { o with exchangeOrderId := some eoid } ∧
    (∀ k, k ≠ cid →
      lookupKey k (handle_create_order_succeeded st cid eoid src).1.pool.byClientId =
        lookupKey k st.pool.byClientId) ∧
    (handle_create_order_succeeded st cid eoid src).1.events = st.events := by
  have hfail : (handle_create_order_failed st cid err).1 = st := by
    cases hstatus : o.status <;> rw [hstatus] at hterm <;>
      first
      | (exfalso; revert hterm; simp [OrderStatus.is_finished]; done)
      | simp [handle_create_order_failed, if_neg hcid, hlook,
          react_on_status_when_failed, hstatus]
  have hsucc : (handle_create_order_succeeded st cid eoid src).1 =
      writeBack cid { o with exchangeOrderId := some eoid } st := by
    cases hstatus : o.status <;> rw [hstatus] at hterm <;>
      first
      | (exfalso; revert hterm; simp [OrderStatus.is_finished]; done)
      | simp [handle_create_order_succeeded, if_neg hcid, if_neg heoid, hlook,
          react_on_status_when_succeed, hstatus, writeBack]
  refine ⟨hfail, hsucc, ?_, ?_, ?_⟩
  · rw [hsucc]
    simp [writeBack, lookupKey_updateFirst_self, hlook]
  · intro k hk
    rw [hsucc]
    simp [writeBack, lookupKey_updateFirst_other cid k hk]
  · rw [hsucc]
    rfl

/-- C1 witness: the amended statement instantiated for a concrete Canceled
order receiving a creation-failure event and a creation-success event with a
different exchange order id. -/
theorem terminal_order_creation_events_witness :
    ("a" : String) ≠ "" ∧
    lookupKey "a" sampleCanceledState.pool.byClientId = some sampleCanceledOrder ∧
    sampleCanceledOrder.status.is_finished = true ∧
    (handle_create_order_failed sampleCanceledState "a" ⟨.Unknown, "m"⟩).1 =
      sampleCanceledState ∧
    lookupKey "a"
        (handle_create_order_succeeded sampleCanceledState "a" "B" .Rest).1.pool.byClientId =
      some { sampleCanceledOrder with exchangeOrderId := some "B" } :=
  ⟨by decide, by decide, by decide,
   (terminal_order_creation_events sampleCanceledState "a" "B" .Rest ⟨.Unknown, "m"⟩
      sampleCanceledOrder (by decide) (by decide) (by decide) (by decide)).1,
   (terminal_order_creation_events sampleCanceledState "a" "B" .Rest ⟨.Unknown, "m"⟩
      sampleCanceledOrder (by decide) (by decide) (by decide) (by decide)).2.2.1⟩

/-! ## C10: prices calculator totality -/

theorem calculateAmountLoop_eq_none_iff (f : TradePlace → Option ℚ)
    (l : List RebasePriceStep) (acc : ℚ) :
    calculateAmountLoop f l acc = none ↔ ∃ s ∈ l, f s.tradePlace = none := by
  induction l generalizing acc with
  | nil => simp [calculateAmountLoop]
  | cons step rest ih =>
    cases hf : f step.tradePlace with
    | none => simp [calculateAmountLoop, hf]
    | some p => simp [calculateAmountLoop, hf, ih]

theorem calculateAmountLoop_all_some (f : TradePlace → Option ℚ)
    (l : List RebasePriceStep) (acc : ℚ) (h : ∀ s ∈ l, (f s.tradePlace).isSome) :
    calculateAmountLoop f l acc =
      some (chainRebasePrice (fun tp => (f tp).getD 0) l acc) := by
  induction l generalizing acc with
  | nil => simp [calculateAmountLoop, chainRebasePrice]
  | cons step rest ih =>
    obtain ⟨p, hp⟩ := Option.isSome_iff_exists.mp (h step (by simp))
    simp [calculateAmountLoop, chainRebasePrice, hp,
      ih _ (fun s hs => h s (by simp [hs]))]

/-- C10: `prices_calculator::calculate` panics (`expect("Invalid price
cache")`, embedded as `Except.error`) exactly when the cache lacks a price
for some step of the chain — so it is total only under the precondition that
every chain step's trade place is in the cache; `calculate_amount_for_chain`
returns `none` on the same missing-price input and `some` of the rebased
amount when every step has a price; and `convert_amount` likewise returns
`none` when some step's snapshot middle price is missing and `some` of the
rebased amount when every step has one. -/
theorem prices_calculator_totality (src : ℚ) (chain : PriceSourceChain)
    (prices : List (TradePlace × ℚ)) (svc : LocalSnapshotsService) :
    ((∃ s ∈ chain.rebasePriceSteps, lookupKey s.tradePlace prices = none) →
      calculate src chain prices = .error "Invalid price cache" ∧
      calculate_amount_for_chain src chain (fun tp => lookupKey tp prices) = none) ∧
    ((∀ s ∈ chain.rebasePriceSteps, (lookupKey s.tradePlace prices).isSome) →
      calculate_amount_for_chain src chain (fun tp => lookupKey tp prices) =
        some (chainRebasePrice (fun tp => (lookupKey tp prices).getD 0)
          chain.rebasePriceSteps 1 * src) ∧
      calculate src chain prices =
        .ok (chainRebasePrice (fun tp => (lookupKey tp prices).getD 0)
          chain.rebasePriceSteps 1 * src)) ∧
    ((∃ s ∈ chain.rebasePriceSteps,
        (lookupKey s.tradePlace svc.snapshots).bind (fun sn => sn.middlePrice) = none) →
      convert_amount src svc chain = none) ∧
    ((∀ s ∈ chain.rebasePriceSteps,
        ((lookupKey s.tradePlace svc.snapshots).bind (fun sn => sn.middlePrice)).isSome) →
      convert_amount src svc chain =
        some (chainRebasePrice
          (fun tp => ((lookupKey tp svc.snapshots).bind (fun sn => sn.middlePrice)).getD 0)
          chain.rebasePriceSteps 1 * src)) := by
  refine ⟨?_, ?_, ?_, ?_⟩
  · intro h
    have hnone : calculateAmountLoop (fun tp => lookupKey tp prices)
        chain.rebasePriceSteps 1 = none :=
      (calculateAmountLoop_eq_none_iff _ _ _).mpr h
    constructor
    · simp [calculate, calculate_amount_for_chain, hnone]
    · simp [calculate_amount_for_chain, hnone]
  · intro h
    have hsome := calculateAmountLoop_all_some (fun tp => lookupKey tp prices)
      chain.rebasePriceSteps 1 h
    constructor
    · simp [calculate_amount_for_chain, hsome]
    · simp [calculate, calculate_amount_for_chain, hsome]
  · intro h
    have hnone : calculateAmountLoop
        (fun tp => (lookupKey tp svc.snapshots).bind (fun sn => sn.middlePrice))
        chain.rebasePriceSteps 1 = none :=
      (calculateAmountLoop_eq_none_iff _ _ _).mpr h
    simp [convert_amount, calculate_amount_for_chain, hnone]
  · intro h
    have hsome := calculateAmountLoop_all_some
      (fun tp => (lookupKey tp svc.snapshots).bind (fun sn => sn.middlePrice))
      chain.rebasePriceSteps 1 h
    simp [convert_amount, calculate_amount_for_chain, hsome]

/-- C10 witness: a one-step chain with an empty cache panics; with the step's
price cached it returns the rebased amount; an empty snapshot service gives
`none`, and one holding a middle price for the step gives the rebased
amount. -/
theorem prices_calculator_totality_witness :
    calculate 10 ⟨[⟨"e", "BTCUSDT", .ToBase⟩]⟩ [] = .error "Invalid price cache" ∧
    calculate 10 ⟨[⟨"e", "BTCUSDT", .ToBase⟩]⟩ [(⟨"e", "BTCUSDT"⟩, 6)] =
      .ok (chainRebasePrice
        (fun tp => (lookupKey tp [(⟨"e", "BTCUSDT"⟩, 6)]).getD 0)
        [⟨"e", "BTCUSDT", .ToBase⟩] 1 * 10) ∧
    convert_amount 10 ⟨[]⟩ ⟨[⟨"e", "BTCUSDT", .ToBase⟩]⟩ = none ∧
    convert_amount 10 ⟨[(⟨"e", "BTCUSDT"⟩, ⟨some 6⟩)]⟩ ⟨[⟨"e", "BTCUSDT", .ToBase⟩]⟩ =
      some (chainRebasePrice
        (fun tp => ((lookupKey tp [(⟨"e", "BTCUSDT"⟩, (⟨some 6⟩ : LocalOrderBookSnapshot))]).bind
          (fun sn => sn.middlePrice)).getD 0)
        [⟨"e", "BTCUSDT", .ToBase⟩] 1 * 10) :=
  ⟨((prices_calculator_totality 10 ⟨[⟨"e", "BTCUSDT", .ToBase⟩]⟩ [] ⟨[]⟩).1
      ⟨⟨"e", "BTCUSDT", .ToBase⟩, by simp, rfl⟩).1,
   ((prices_calculator_totality 10 ⟨[⟨"e", "BTCUSDT", .ToBase⟩]⟩
      [(⟨"e", "BTCUSDT"⟩, 6)] ⟨[]⟩).2.1 (by decide)).2,
   (prices_calculator_totality 10 ⟨[⟨"e", "BTCUSDT", .ToBase⟩]⟩ [] ⟨[]⟩).2.2.1
      ⟨⟨"e", "BTCUSDT", .ToBase⟩, by simp, rfl⟩,
   (prices_calculator_totality 10 ⟨[⟨"e", "BTCUSDT", .ToBase⟩]⟩ []
      ⟨[(⟨"e", "BTCUSDT"⟩, ⟨some 6⟩)]⟩).2.2.2 (by decide)⟩

/-! ## C2: linked cancellation tokens -/

theorem foldl_preserve {β γ : Type} (P : β → Prop) (f : β → γ → β) (l : List γ) (b : β)
    (hb : P b) (hstep : ∀ b c, P b → P (f b c)) : P (l.foldl f b) := by
  induction l generalizing b with
  | nil => exact hb
  | cons c t ih => exact ih _ (hstep _ _ hb)

theorem getD_set_self {α : Type} : ∀ (l : List α) (i : Nat) (a d : α), i < l.length →
    (l.set i a).getD i d = a
  | [], _, _, _, h => absurd h (by simp)
  | _ :: _, 0, _, _, _ => rfl
  | _ :: t, i + 1, a, d, h => getD_set_self t i a d (Nat.lt_of_succ_lt_succ h)

theorem getD_set_ne {α : Type} : ∀ (l : List α) (i j : Nat) (a d : α), i ≠ j →
    (l.set i a).getD j d = l.getD j d
  | [], _, _, _, _, _ => rfl
  | _ :: _, 0, 0, _, _, h => absurd rfl h
  | _ :: _, 0, _ + 1, _, _, _ => rfl
  | _ :: _, _ + 1, 0, _, _, _ => rfl
  | _ :: t, i + 1, j + 1, a, d, h => getD_set_ne t i j a d (fun hh => h (by rw [hh]))

theorem getD_set_true : ∀ (l : List Bool) (i j : Nat), l.getD j false = true →
    (l.set i true).getD j false = true
  | [], _, _, h => h
  | _ :: _, 0, 0, _ => rfl
  | _ :: _, 0, _ + 1, h => h
  | _ :: _, _ + 1, 0, h => h
  | _ :: t, i + 1, j + 1, h => getD_set_true t i j h

theorem cancelAux_frame (fuel : Nat) : ∀ (w : TokenWorld) (id : Nat),
    (cancelAux fuel w id).handlers = w.handlers ∧
    (cancelAux fuel w id).numTokens = w.numTokens ∧
    (cancelAux fuel w id).cancelled.length = w.cancelled.length := by
  induction fuel with
  | zero => exact fun w id => ⟨rfl, rfl, rfl⟩
  | succ fuel ih =>
    intro w id
    simp only [cancelAux]
    refine foldl_preserve
      (P := fun x : TokenWorld => x.handlers = w.handlers ∧ x.numTokens = w.numTokens ∧
        x.cancelled.length = w.cancelled.length) _ _ _ ⟨rfl, rfl, by simp⟩ ?_
    intro b c hb
    obtain ⟨h1, h2, h3⟩ := ih b c
    exact ⟨h1.trans hb.1, h2.trans hb.2.1, h3.trans hb.2.2⟩

theorem cancelAux_mono (fuel : Nat) : ∀ (w : TokenWorld) (i j : Nat),
    w.cancelled.getD j false = true →
    (cancelAux fuel w i).cancelled.getD j false = true := by
  induction fuel with
  | zero => exact fun w i j h => h
  | succ fuel ih =>
    intro w i j h
    simp only [cancelAux]
    refine foldl_preserve (P := fun x : TokenWorld => x.cancelled.getD j false = true)
      _ _ _ ?_ (fun b c hb => ih b c j hb)
    exact getD_set_true _ _ _ h

theorem cancelAux_self (fuel : Nat) (w : TokenWorld) (i : Nat) (hfuel : 1 ≤ fuel)
    (hi : i < w.cancelled.length) :
    (cancelAux fuel w i).cancelled.getD i false = true := by
  cases fuel with
  | zero => exact absurd hfuel (by simp)
  | succ fuel =>
    simp only [cancelAux]
    refine foldl_preserve (P := fun x : TokenWorld => x.cancelled.getD i false = true)
      _ _ _ ?_ (fun b c hb => cancelAux_mono fuel b c i hb)
    exact getD_set_self _ _ _ _ hi

theorem cancelAux_fold_hits (fuel : Nat) (c : Nat) (hfuel : 1 ≤ fuel) :
    ∀ (l : List Nat) (acc : TokenWorld), c ∈ l → c < acc.cancelled.length →
    ((l.foldl (fun a b => cancelAux fuel a b) acc)).cancelled.getD c false = true := by
  intro l
  induction l with
  | nil => intro acc hc; exact absurd hc (by simp)
  | cons hd t ih =>
    intro acc hc hlen
    rw [List.foldl_cons]
    rcases List.mem_cons.mp hc with heq | hmem
    · subst heq
      refine foldl_preserve (P := fun x : TokenWorld => x.cancelled.getD c false = true)
        _ _ _ ?_ (fun b x hb => cancelAux_mono fuel b x c hb)
      exact cancelAux_self fuel acc c hfuel hlen
    · exact ih (cancelAux fuel acc hd) hmem
        (by rw [(cancelAux_frame fuel acc hd).2.2]; exact hlen)

/-- Cancelling a token cancels every token registered in its handler list. -/
theorem cancelAux_child (fuel : Nat) (w : TokenWorld) (i c : Nat)
    (hc : c ∈ w.handlers.getD i []) (hfuel : 1 ≤ fuel) (hlen : c < w.cancelled.length) :
    (cancelAux (fuel + 1) w i).cancelled.getD c false = true := by
  simp only [cancelAux]
  exact cancelAux_fold_hits fuel c hfuel _ _ hc (by simpa using hlen)

/-- Cancelling a token never touches the flag of an earlier-created token,
provided handlers only point to later-created tokens. -/
theorem cancelAux_locality (fuel : Nat) : ∀ (w : TokenWorld) (i j : Nat), j < i →
    w.upward → (cancelAux fuel w i).cancelled.getD j false = w.cancelled.getD j false := by
  induction fuel with
  | zero => exact fun w i j _ _ => rfl
  | succ fuel ih =>
    intro w i j hj hup
    simp only [cancelAux]
    have hset : ((w.cancelled.set i true)).getD j false = w.cancelled.getD j false :=
      getD_set_ne _ _ _ _ _ (fun h => absurd h (Nat.ne_of_gt hj))
    have haux : ∀ (l : List Nat) (acc : TokenWorld), (∀ c ∈ l, j < c) →
        acc.handlers = w.handlers →
        acc.cancelled.getD j false = w.cancelled.getD j false →
        ((l.foldl (fun a b => cancelAux fuel a b) acc)).cancelled.getD j false =
          w.cancelled.getD j false := by
      intro l
      induction l with
      | nil => exact fun acc _ _ h => h
      | cons hd t iht =>
        intro acc hl hh hflag
        rw [List.foldl_cons]
        refine iht _ (fun c hcm => hl c (List.mem_cons_of_mem _ hcm)) ?_ ?_
        · rw [(cancelAux_frame fuel acc hd).1, hh]
        · have hup' : acc.upward := fun i' c' hc' => hup i' c' (by rw [hh] at hc'; exact hc')
          rw [ih acc hd j (hl hd (by simp)) hup']
          exact hflag
    refine haux _ _ ?_ rfl hset
    intro c hcm
    exact lt_trans hj (hup i c hcm)

/-- Unpack `TokenWorld.wf` into its propositional consequences. -/
theorem wf_spec (w : TokenWorld) (hwf : w.wf = true) :
    w.cancelled.length = w.numTokens ∧ w.handlers.length = w.numTokens ∧
    ∀ i c, c ∈ w.handlers.getD i [] → i < c ∧ c < w.numTokens := by
  simp only [TokenWorld.wf, Bool.and_eq_true, List.all_eq_true, decide_eq_true_eq,
    List.mem_range] at hwf
  obtain ⟨⟨h1, h2⟩, h3⟩ := hwf
  refine ⟨h1, h2, ?_⟩
  intro i c hc
  by_cases hi : i < w.numTokens
  · have := h3 i hi c hc
    exact ⟨this.1, this.2⟩
  · rw [List.getD_eq_default _ _ (by rw [h2]; omega)] at hc
    exact absurd hc (by simp)

/-- C2: for every well-formed token world and every parent token, the child
returned by `create_linked_token` satisfies: cancelling the parent cancels
the child; cancelling the child leaves the parent's flag exactly as it was
(in particular an uncancelled parent stays uncancelled); and if the parent
was already cancelled at link time the child is cancelled immediately upon
creation. -/
theorem linked_token_cancellation (w : TokenWorld) (parent : Nat)
    (hwf : w.wf = true) (hp : parent < w.numTokens) :
    ((w.create_linked_token parent).2.cancel parent).is_cancellation_requested
        (w.create_linked_token parent).1 = true ∧
    ((w.create_linked_token parent).2.cancel
        (w.create_linked_token parent).1).is_cancellation_requested parent =
      w.is_cancellation_requested parent ∧
    (w.is_cancellation_requested parent = true →
      (w.create_linked_token parent).2.is_cancellation_requested
        (w.create_linked_token parent).1 = true) := by
  obtain ⟨hlen, hhlen, hedge⟩ := wf_spec w hwf
  set child := w.numTokens with hchild
  -- the world right after registering the handler, before the immediate cancel
  set w2 : TokenWorld :=
    { numTokens := w.numTokens + 1
      cancelled := w.cancelled ++ [false]
      handlers := (w.handlers ++ [[]]).set parent
        (((w.handlers ++ [[]]).getD parent []) ++ [child]) } with hw2
  have hcreate : w.create_linked_token parent =
      (child, if w2.is_cancellation_requested parent then w2.cancel child else w2) := by
    simp [TokenWorld.create_linked_token, TokenWorld.newToken, TokenWorld.register_handler,
      TokenWorld.is_cancellation_requested, hw2]
  have hw2hlen : w2.handlers.length = w.numTokens + 1 := by
    simp [hw2, hhlen]
  have hw2clen : w2.cancelled.length = w.numTokens + 1 := by
    simp [hw2, hlen]
  have hchild_mem : child ∈ w2.handlers.getD parent [] := by
    rw [hw2]
    simp only
    rw [getD_set_self _ _ _ _ (by rw [List.length_append, hhlen]; omega)]
    simp
  have hw2edge : ∀ i c, c ∈ w2.handlers.getD i [] → i < c ∧ c < w2.numTokens := by
    intro i c hc
    by_cases hip : i = parent
    · subst hip
      rw [hw2] at hc
      simp only at hc
      rw [getD_set_self _ _ _ _ (by rw [List.length_append, hhlen]; omega)] at hc
      rcases List.mem_append.mp hc with hold | hnew
      · rw [List.getD_append _ _ _ _ (by rw [hhlen]; exact hp)] at hold
        have := hedge i c hold
        simp only [hw2]
        omega
      · simp at hnew
        simp only [hw2, hnew, hchild]
        omega
    · rw [hw2] at hc
      simp only at hc
      rw [getD_set_ne _ _ _ _ _ (fun h => hip h.symm)] at hc
      by_cases hi : i < w.handlers.length
      · rw [List.getD_append _ _ _ _ hi] at hc
        have := hedge i c hc
        simp only [hw2]
        omega
      · by_cases hi1 : i < w.handlers.length + 1
        · have : i = w.handlers.length := by omega
          rw [this, List.getD_append_right _ _ _ _ (le_refl _)] at hc
          simp at hc
        · rw [List.getD_eq_default _ _ (by simp; omega)] at hc
          exact absurd hc (by simp)
  have hw2up : w2.upward := fun i c hc => (hw2edge i c hc).1
  -- the parent's flag in w2 equals its flag in w
  have hw2parent : w2.cancelled.getD parent false = w.cancelled.getD parent false := by
    rw [hw2]
    simp only
    rw [List.getD_append _ _ _ _ (by rw [hlen]; exact hp)]
  -- the child's flag in w2 is false
  have hw2child : w2.cancelled.getD child false = false := by
    rw [hw2]
    simp only
    rw [List.getD_append_right _ _ _ _ (by rw [hlen])]
    simp [hlen]
  rw [hcreate]
  by_cases hpc : w2.is_cancellation_requested parent = true
  · -- parent already cancelled at link time
    simp only [hpc, if_true]
    set w3 := w2.cancel child with hw3
    have hw3frame : w3.handlers = w2.handlers ∧ w3.numTokens = w2.numTokens ∧
        w3.cancelled.length = w2.cancelled.length := by
      rw [hw3, TokenWorld.cancel]
      exact cancelAux_frame _ _ _
    have hw3child : w3.cancelled.getD child false = true := by
      rw [hw3, TokenWorld.cancel]
      exact cancelAux_self _ _ _ (by simp [hw2]) (by rw [hw2clen]; omega)
    have hw3parent : w3.cancelled.getD parent false = w2.cancelled.getD parent false := by
      rw [hw3, TokenWorld.cancel]
      exact cancelAux_locality _ _ _ _ (by omega) hw2up
    have hw3up : w3.upward := fun i c hc => hw2up i c (by rw [hw3frame.1] at hc; exact hc)
    have hw3child_mem : child ∈ w3.handlers.getD parent [] := by
      rw [hw3frame.1]
      exact hchild_mem
    refine ⟨?_, ?_, fun _ => hw3child⟩
    · -- cancel parent in w3: child already cancelled stays cancelled
      rw [TokenWorld.cancel, TokenWorld.is_cancellation_requested]
      exact cancelAux_mono _ _ _ _ hw3child
    · -- cancel child in w3: parent flag untouched
      rw [TokenWorld.cancel, TokenWorld.is_cancellation_requested]
      rw [cancelAux_locality _ _ _ _ (by omega) hw3up]
      rw [hw3parent]
      exact hw2parent
  · -- parent not yet cancelled
    rw [if_neg hpc]
    have hsz : w2.numTokens = w.numTokens + 1 := by simp [hw2]
    refine ⟨?_, ?_, ?_⟩
    · -- cancel parent cancels child
      simp only [TokenWorld.cancel, TokenWorld.is_cancellation_requested]
      exact cancelAux_child _ _ _ _ hchild_mem (by omega) (by rw [hw2clen]; omega)
    · -- cancel child leaves parent's flag as in w
      simp only [TokenWorld.cancel, TokenWorld.is_cancellation_requested]
      rw [cancelAux_locality _ _ _ _ (by omega) hw2up]
      exact hw2parent
    · -- vacuous: the parent was not cancelled at link time
      intro hcontra
      exfalso
      apply hpc
      simp only [TokenWorld.is_cancellation_requested] at hcontra ⊢
      rw [hw2parent]
      exact hcontra

/-- C2 witness: in a one-token world, cancelling the parent cancels its
linked child, cancelling the child leaves the parent uncancelled, and a child
linked to an already-cancelled parent is cancelled at creation. -/
theorem linked_token_cancellation_witness :
    sampleTokenWorld.wf = true ∧ 0 < sampleTokenWorld.numTokens ∧
    ((sampleTokenWorld.create_linked_token 0).2.cancel 0).is_cancellation_requested
        (sampleTokenWorld.create_linked_token 0).1 = true ∧
    ((sampleTokenWorld.create_linked_token 0).2.cancel
        (sampleTokenWorld.create_linked_token 0).1).is_cancellation_requested 0 =
      sampleTokenWorld.is_cancellation_requested 0 ∧
    (sampleCancelledTokenWorld.create_linked_token 0).2.is_cancellation_requested
        (sampleCancelledTokenWorld.create_linked_token 0).1 = true :=
  ⟨by decide, by decide,
   (linked_token_cancellation sampleTokenWorld 0 (by decide) (by decide)).1,
   (linked_token_cancellation sampleTokenWorld 0 (by decide) (by decide)).2.1,
   (linked_token_cancellation sampleCancelledTokenWorld 0 (by decide) (by decide)).2.2
     (by decide)⟩

/-! ## C3: atomicity of try_reserve_pair -/

/-- C3: if `try_reserve_pair` fails because either leg cannot be reserved,
the state is exactly the state before the call: no reservation is stored
under either handle the call would have assigned, and every available balance
queried afterwards equals its value before the call. -/
theorem try_reserve_pair_atomic (s : BalanceManager) (p1 p2 : ReserveParameters)
    (hids : ∀ id r, (id, r) ∈ s.reservations → id < s.nextReservationId)
    (hfail : (s.try_reserve_pair p1 p2).1 = none) :
    (s.try_reserve_pair p1 p2).2 = s ∧
    (s.try_reserve_pair p1 p2).2.get_reservation s.nextReservationId = none ∧
    (s.try_reserve_pair p1 p2).2.get_reservation (s.nextReservationId + 1) = none ∧
    ∀ q, (s.try_reserve_pair p1 p2).2.get_balance_by_reserve_parameters q =
      s.get_balance_by_reserve_parameters q := by
  have hfresh : ∀ n, s.nextReservationId ≤ n → s.get_reservation n = none := by
    intro n hn
    cases hh : lookupKey n s.reservations with
    | none => exact hh
    | some r => exact absurd (hids n r (lookupKey_mem hh)) (by omega)
  have hstate : (s.try_reserve_pair p1 p2).2 = s := by
    cases h1 : s.try_reserve p1 with
    | none => simp [BalanceManager.try_reserve_pair, h1]
    | some pr =>
      obtain ⟨id1, s1⟩ := pr
      cases h2 : s1.try_reserve p2 with
      | none => simp [BalanceManager.try_reserve_pair, h1, h2]
      | some pr2 =>
        obtain ⟨id2, s2⟩ := pr2
        simp [BalanceManager.try_reserve_pair, h1, h2] at hfail
  exact ⟨hstate, by rw [hstate]; exact hfresh _ (le_refl _),
    by rw [hstate]; exact hfresh _ (by omega), fun q => by rw [hstate]⟩

/-- C3 witness: reserving the (Buy, Sell) pair with no BTC cell fails on the
Buy leg and leaves the 5 ETH balance and the empty reservation table intact. -/
theorem try_reserve_pair_atomic_witness :
    (sampleEthState.try_reserve_pair sampleBuyParams sampleSellParams).1 = none ∧
    (sampleEthState.try_reserve_pair sampleBuyParams sampleSellParams).2 = sampleEthState ∧
    (sampleEthState.try_reserve_pair sampleBuyParams sampleSellParams).2.get_reservation 0
      = none ∧
    (sampleEthState.try_reserve_pair sampleBuyParams
        sampleSellParams).2.get_balance_by_reserve_parameters sampleSellParams =
      sampleEthState.get_balance_by_reserve_parameters sampleSellParams :=
  ⟨by decide,
   (try_reserve_pair_atomic sampleEthState sampleBuyParams sampleSellParams
      (by simp [sampleEthState]) (by decide)).1,
   (try_reserve_pair_atomic sampleEthState sampleBuyParams sampleSellParams
      (by simp [sampleEthState]) (by decide)).2.1,
   (try_reserve_pair_atomic sampleEthState sampleBuyParams sampleSellParams
      (by simp [sampleEthState]) (by decide)).2.2.2 sampleSellParams⟩

/-! ## C4: unreserve compensation and removal -/

/-- C4: for a reservation with remaining unreserved amount `r.unreservedAmount`
on a known exchange, `unreserve` rejects an amount exceeding the remainder by
more than the configured epsilon; an amount covering the full remainder but
exceeding it by at most epsilon succeeds, the unreserved quantity is clamped
to the remainder, the fully-unreserved reservation is removed — so
`get_reservation` afterwards returns none and a subsequent `unreserve` on the
same handle returns an error. -/
theorem unreserve_compensation (s : BalanceManager) (eps x : ℚ) (id : Nat) (r : Reservation)
    (hlook : lookupKey id s.reservations = some r)
    (hknown : r.exchangeAccountId ∈ s.knownExchanges)
    (hnodup : (s.reservations.map Prod.fst).Nodup) :
    (r.unreservedAmount + eps < x →
      s.unreserve eps id x = .error "attempt to unreserve more than reserved") ∧
    (r.unreservedAmount ≤ x → x ≤ r.unreservedAmount + eps →
      s.unreserve eps id x =
        .ok { s with reservations := removeFirst id s.reservations } ∧
      ({ s with reservations := removeFirst id s.reservations } :
          BalanceManager).get_reservation id = none ∧
      ∀ y, ({ s with reservations := removeFirst id s.reservations } :
          BalanceManager).unreserve eps id y = .error "Can't find reservation_id=") := by
  constructor
  · intro hgt
    simp [BalanceManager.unreserve, hlook, hknown, if_pos hgt]
  · intro hle hle2
    have hnotgt : ¬(r.unreservedAmount + eps < x) := not_lt.mpr hle2
    have hmin : min x r.unreservedAmount = r.unreservedAmount := min_eq_right hle
    refine ⟨?_, ?_, ?_⟩
    · simp [BalanceManager.unreserve, hlook, hknown, hnotgt, hmin]
    · simpa [BalanceManager.get_reservation] using
        lookupKey_removeFirst_self id s.reservations hnodup
    · intro y
      simp [BalanceManager.unreserve,
        lookupKey_removeFirst_self id s.reservations hnodup]

/-- C4 witness: unreserving 5.00001 from the 5-ETH reservation (epsilon 0.001)
removes it, a further unreserve errors, and unreserving 5.002 is rejected. -/
theorem unreserve_compensation_witness :
    (sampleReservedState.unreserve (1/1000) 7 (5 + 1/100000) =
      .ok { sampleReservedState with
            reservations := removeFirst 7 sampleReservedState.reservations }) ∧
    ({ sampleReservedState with
       reservations := removeFirst 7 sampleReservedState.reservations } :
        BalanceManager).get_reservation 7 = none ∧
    ({ sampleReservedState with
       reservations := removeFirst 7 sampleReservedState.reservations } :
        BalanceManager).unreserve (1/1000) 7 5 = .error "Can't find reservation_id=" ∧
    sampleReservedState.unreserve (1/1000) 7 (5 + 2/1000) =
      .error "attempt to unreserve more than reserved" :=
  ⟨((unreserve_compensation sampleReservedState (1/1000) (5 + 1/100000) 7
      sampleBuyReservation rfl (by decide) (by decide)).2
      (by norm_num [sampleBuyReservation]) (by norm_num [sampleBuyReservation])).1,
   ((unreserve_compensation sampleReservedState (1/1000) (5 + 1/100000) 7
      sampleBuyReservation rfl (by decide) (by decide)).2
      (by norm_num [sampleBuyReservation]) (by norm_num [sampleBuyReservation])).2.1,
   ((unreserve_compensation sampleReservedState (1/1000) (5 + 1/100000) 7
      sampleBuyReservation rfl (by decide) (by decide)).2
      (by norm_num [sampleBuyReservation]) (by norm_num [sampleBuyReservation])).2.2 5,
   (unreserve_compensation sampleReservedState (1/1000) (5 + 2/1000) 7
      sampleBuyReservation rfl (by decide) (by decide)).1
     (by norm_num [sampleBuyReservation])⟩

/-! ## C8: unreserve against an unknown exchange -/

/-- C8: `unreserve` for a reservation whose exchange account id no longer
corresponds to a known exchange returns success while leaving the whole state
— in particular the reservation, its unreserved amount, and every balance —
unchanged. -/
theorem unreserve_unknown_exchange_noop (s : BalanceManager) (eps x : ℚ) (id : Nat)
    (r : Reservation)
    (hlook : lookupKey id s.reservations = some r)
    (hunknown : r.exchangeAccountId ∉ s.knownExchanges) :
    s.unreserve eps id x = .ok s ∧
    s.get_reservation id = some r := by
  constructor
  · simp [BalanceManager.unreserve, hlook, hunknown]
  · exact hlook

/-- C8 witness: unreserving the full amount from the orphaned reservation
returns success and leaves it (unreserved amount 5) in place. -/
theorem unreserve_unknown_exchange_noop_witness :
    sampleOrphanState.unreserve (1/1000) 7 5 = .ok sampleOrphanState ∧
    sampleOrphanState.get_reservation 7 =
      some { sampleBuyReservation with exchangeAccountId := "gone" } :=
  ⟨(unreserve_unknown_exchange_noop sampleOrphanState (1/1000) 5 7
      { sampleBuyReservation with exchangeAccountId := "gone" }
      rfl (by decide)).1,
   (unreserve_unknown_exchange_noop sampleOrphanState (1/1000) 5 7
      { sampleBuyReservation with exchangeAccountId := "gone" }
      rfl (by decide)).2⟩

/-! ## C5: repricing a Buy reservation -/

/-- C5: for an existing Buy reservation (its balance cell present, its
remaining unreserved amount positive): a better (lower) price always
succeeds; a worse price with the extra cost within the available balance
succeeds; every success changes only the reservation's price, shifting the
reserved total — and hence the available balance — by exactly the price
delta times the unreserved amount (a release for a better price, a debit for
a worse one); and a worse price whose extra cost exceeds the available
balance fails mutating nothing, the reservation keeping its old price and
amounts and the balance staying unchanged. -/
theorem try_update_reservation_buy (s : BalanceManager) (id : Nat) (newPrice b : ℚ)
    (r : Reservation)
    (hlook : lookupKey id s.reservations = some r)
    (hbuy : r.side = .Buy)
    (hu : 0 < r.unreservedAmount)
    (hbal : lookupKey (r.exchangeAccountId, r.reservationCurrency) s.balances = some b) :
    (newPrice < r.price → (s.try_update_reservation id newPrice).1 = true) ∧
    (r.unreservedAmount * newPrice - r.unreservedAmount * r.price ≤
        b - s.reservedAmount r.exchangeAccountId r.reservationCurrency →
      (s.try_update_reservation id newPrice).1 = true) ∧
    ((s.try_update_reservation id newPrice).1 = true →
      (s.try_update_reservation id newPrice).2.get_reservation id =
        some { r with price := newPrice } ∧
      (s.try_update_reservation id newPrice).2.reservedAmount
          r.exchangeAccountId r.reservationCurrency =
        s.reservedAmount r.exchangeAccountId r.reservationCurrency +
          (r.unreservedAmount * newPrice - r.unreservedAmount * r.price)) ∧
    (r.price < newPrice →
      b - s.reservedAmount r.exchangeAccountId r.reservationCurrency <
        r.unreservedAmount * newPrice - r.unreservedAmount * r.price →
      s.try_update_reservation id newPrice = (false, s)) := by
  have hcost : ∀ p : ℚ, costInReservationCurrency r.side p r.unreservedAmount =
      r.unreservedAmount * p := by
    intro p
    rw [hbuy]
    rfl
  simp only [BalanceManager.try_update_reservation, hlook, hbal, hcost]
  by_cases hcond : (0 < r.unreservedAmount * newPrice - r.unreservedAmount * r.price ∧
      b - s.reservedAmount r.exchangeAccountId r.reservationCurrency <
        r.unreservedAmount * newPrice - r.unreservedAmount * r.price)
  · rw [if_pos hcond]
    refine ⟨?_, ?_, ?_, fun _ _ => rfl⟩
    · intro h
      exfalso
      have h1 : r.unreservedAmount * newPrice ≤ r.unreservedAmount * r.price :=
        mul_le_mul_of_nonneg_left (le_of_lt h) (le_of_lt hu)
      linarith [hcond.1]
    · intro h
      exfalso
      linarith [hcond.2]
    · intro h
      exact absurd h (by simp)
  · rw [if_neg hcond]
    refine ⟨fun _ => rfl, fun _ => rfl, fun _ => ⟨?_, ?_⟩, ?_⟩
    · simp [BalanceManager.get_reservation, lookupKey_updateFirst_self, hlook]
    · simp only [BalanceManager.reservedAmount]
      rw [sum_map_updateFirst _ id _ s.reservations r hlook]
      simp only [Reservation.reservationCurrency, hbuy, costInReservationCurrency]
      simp
      ring
    · intro h1 h2
      exfalso
      apply hcond
      refine ⟨?_, h2⟩
      have hpos : 0 < r.unreservedAmount * (newPrice - r.price) :=
        mul_pos hu (by linarith)
      rw [mul_sub] at hpos
      linarith

/-- C5 witness: at the concrete 1.1-BTC state with a Buy reservation of 5 at
price 0.2 — updating to the better price 0.1 succeeds and reprices the
reservation; updating to the worse price 0.3 (needing 0.5 beyond the 0.1
available) fails and returns the state unchanged. -/
theorem try_update_reservation_buy_witness :
    (sampleReservedState.try_update_reservation 7 (1/10)).1 = true ∧
    (sampleReservedState.try_update_reservation 7 (1/10)).2.get_reservation 7 =
      some { sampleBuyReservation with price := 1/10 } ∧
    sampleReservedState.try_update_reservation 7 (3/10) = (false, sampleReservedState) :=
  ⟨(try_update_reservation_buy sampleReservedState 7 (1/10) (11/10) sampleBuyReservation
      rfl rfl (by norm_num [sampleBuyReservation]) rfl).1
      (by norm_num [sampleBuyReservation]),
   ((try_update_reservation_buy sampleReservedState 7 (1/10) (11/10) sampleBuyReservation
      rfl rfl (by norm_num [sampleBuyReservation]) rfl).2.2.1
      ((try_update_reservation_buy sampleReservedState 7 (1/10) (11/10) sampleBuyReservation
        rfl rfl (by norm_num [sampleBuyReservation]) rfl).1
        (by norm_num [sampleBuyReservation]))).1,
   (try_update_reservation_buy sampleReservedState 7 (3/10) (11/10) sampleBuyReservation
      rfl rfl (by norm_num [sampleBuyReservation]) rfl).2.2.2
      (by norm_num [sampleBuyReservation])
      (by norm_num [sampleReservedState, sampleBuyReservation, BalanceManager.reservedAmount,
        Reservation.reservationCurrency, costInReservationCurrency])⟩

end Mmb
